import Mathlib

/-!
Verification development for the agentic code-refactoring pipeline
(master orchestrator / worker agents / diff generator / git manager).

The Python sources are shallowly embedded: pure computations become Lean
functions, external effects (file IO, database writes, LLM calls) become
explicit parameters or outcome values, and Python exceptions on a path are
modelled by `Option`/explicit failure values exactly where the source
catches or raises them.  Machine floats that only ever hold exact decimal
constants (confidence scores, similarity scores) are modelled as `ℚ`.
-/

namespace CodeRefactor

/-! ### Python string primitives

Helpers mirroring the Python `str` methods used by the sources.  They are
implemented over `List Char` so that every definition reduces inside the
kernel.  The Python `str.strip`/`rstrip`/`lstrip` methods with no argument remove
whitespace (space, tab, newline, carriage return, vertical tab, form feed;
the rarer unicode whitespace code points do not occur in any input
considered here).
-/

def pyIsSpace (c : Char) : Bool :=
  c = ' ' || c = '\t' || c = '\n' || c = '\r' || c = '\x0b' || c = '\x0c'

def lstripL (l : List Char) : List Char :=
  l.dropWhile pyIsSpace

def rstripL (l : List Char) : List Char :=
  (l.reverse.dropWhile pyIsSpace).reverse

/-- Python `s.strip()`. -/
def pyStripStr (s : String) : String :=
  String.mk (lstripL (rstripL s.toList))

/-- Python `s.rstrip()`. -/
def pyRstripStr (s : String) : String :=
  String.mk (rstripL s.toList)

/-- Python `s.startswith(p)`. -/
def pyStartsWith (p s : String) : Bool :=
  p.toList.isPrefixOf s.toList

/-- Python `s.lower()`: charwise `toLower` for the ASCII text used here. -/
def pyLower (s : String) : String :=
  String.mk (s.toList.map Char.toLower)

/-- Is `needle` a contiguous substring of `hay`?  (Python `needle in hay`.) -/
def containsSubL (needle : List Char) : List Char → Bool
  | [] => needle.isEmpty
  | c :: cs => needle.isPrefixOf (c :: cs) || containsSubL needle cs

def pyContainsSub (needle hay : String) : Bool :=
  containsSubL needle.toList hay.toList

/-- Split a char list at every occurrence of the character `c`
(Python `s.split(c)` for a one-character separator). -/
def splitCharL (c : Char) : List Char → List (List Char)
  | [] => [[]]
  | x :: xs =>
    let rest := splitCharL c xs
    if x = c then [] :: rest
    else
      match rest with
      | [] => [[x]]
      | r :: rs => (x :: r) :: rs

/-- Python `s.split(sep)` for a one-character separator `sep`. -/
def pySplitChar (c : Char) (s : String) : List String :=
  (splitCharL c s.toList).map String.mk

/-- Remove a leading occurrence of the non-empty separator `sep` if
present, returning the rest. -/
def dropSep (sep l : List Char) : Option (List Char) :=
  if sep.isEmpty then none
  else if sep.isPrefixOf l then some (l.drop sep.length) else none

/-- Split on a multi-character separator, leftmost non-overlapping
(Python `s.split(sep)`).  Structured with explicit fuel (called with
`fuel = l.length`, which always suffices) so that it reduces in the
kernel. -/
def splitSubF (sep : List Char) : Nat → List Char → List (List Char)
  | 0, l => [l]
  | _, [] => [[]]
  | f + 1, x :: xs =>
    match dropSep sep (x :: xs) with
    | some rest => [] :: splitSubF sep f rest
    | none =>
      match splitSubF sep f xs with
      | [] => [[x]]
      | r :: rs => (x :: r) :: rs

def pySplitSub (sep s : String) : List String :=
  (splitSubF sep.toList s.toList.length s.toList).map String.mk

/-- Python `s.split()` with no argument: split on whitespace runs,
dropping empty fields. -/
def splitWSL (l : List Char) : List (List Char) :=
  (splitCharL ' ' (l.map (fun c => if pyIsSpace c then ' ' else c))).filter
    (fun f => ¬ f.isEmpty)

def pySplitWS (s : String) : List String :=
  (splitWSL s.toList).map String.mk

/-- Python `s.find(c)` for a single character: index of the first
occurrence, or `none` (Python returns `-1`). -/
def pyFindChar (c : Char) (s : String) : Option Nat :=
  s.toList.findIdx? (· = c)

/-- Python `s.rfind(c)` for a single character. -/
def pyRfindChar (c : Char) (s : String) : Option Nat :=
  match (s.toList.reverse.findIdx? (· = c)) with
  | none => none
  | some k => some (s.toList.length - 1 - k)

/-- Python slice `s[i:j]` for `0 ≤ i ≤ j`. -/
def pySlice (s : String) (i j : Nat) : String :=
  String.mk ((s.toList.take j).drop i)

/-- Python `s[n:]`. -/
def pyDrop (n : Nat) (s : String) : String :=
  String.mk (s.toList.drop n)

/-- Python `'\n'.join(lines)`. -/
def joinNL (lines : List String) : String :=
  String.mk (List.intercalate ['\n'] (lines.map String.toList))

/-- Python empty-string join of a list of strings. -/
def joinEmpty (parts : List String) : String :=
  String.mk (parts.map String.toList).flatten

/-- Python `s.splitlines(keepends=True)` line boundaries. -/
def isLineBoundary (c : Char) : Bool :=
  c = '\n' || c = '\r' || c = '\x0b' || c = '\x0c' || c = '\x1c' ||
  c = '\x1d' || c = '\x1e' || c = '\x85' || c = '\u2028' || c = '\u2029'

/-- Python `s.splitlines(keepends=True)`; `cur` is the reversed current
line accumulator. -/
def splitLinesKEAux (cur : List Char) : List Char → List (List Char)
  | [] => if cur.isEmpty then [] else [cur.reverse]
  | '\r' :: '\n' :: rest => (cur.reverse ++ ['\r', '\n']) :: splitLinesKEAux [] rest
  | c :: rest =>
    if isLineBoundary c then (cur.reverse ++ [c]) :: splitLinesKEAux [] rest
    else splitLinesKEAux (c :: cur) rest

def pySplitLinesKE (s : String) : List String :=
  (splitLinesKEAux [] s.toList).map String.mk

/-- Python `s.expandtabs(tabsize)`, tracking the current column. -/
def expandTabsL (tabsize : Nat) (col : Nat) : List Char → List Char
  | [] => []
  | c :: rest =>
    if c = '\t' then
      let pad := tabsize - col % tabsize
      List.replicate pad ' ' ++ expandTabsL tabsize (col + pad) rest
    else if c = '\n' || c = '\r' then c :: expandTabsL tabsize 0 rest
    else c :: expandTabsL tabsize (col + 1) rest

def pyExpandTabs4 (s : String) : String :=
  String.mk (expandTabsL 4 0 s.toList)

/-- Python `sep.join(parts)`. -/
def pyJoin (sep : String) (ps : List String) : String :=
  match ps with
  | [] => ""
  | p :: rest => p ++ joinEmpty (rest.map (fun q => sep ++ q))

/-- Python `s.replace(old, new)`: replace all non-overlapping occurrences,
left to right.  Fuel-based (`fuel = s.length` suffices); an empty `old`
never occurs at the call sites, and is treated as a no-op here. -/
def replaceAllF (old new : List Char) : Nat → List Char → List Char
  | 0, l => l
  | _, [] => []
  | f + 1, c :: cs =>
    match dropSep old (c :: cs) with
    | some rest => new ++ replaceAllF old new f rest
    | none => c :: replaceAllF old new f cs

def pyReplace (s old new : String) : String :=
  String.mk (replaceAllF old.toList new.toList s.toList.length s.toList)

/-! ### Diff generator: data model (`src/diff/diff_generator.py`)

A violation record is a Python dict; the embedding keeps exactly the keys
the generator reads, each optional to model `dict.get` defaults. -/

structure Violation where
  rule_id : Option String := none
  line_number : Option Int := none
  column_number : Option Int := none
  violation_description : Option String := none
  severity : Option String := none
  suggested_fix : Option String := none
  problematic_code : Option String := none
  confidence_score : Option ℚ := none
deriving DecidableEq

structure CodeFix where
  file_path : String
  line_number : Int
  column_number : Option Int
  original_code : String
  fixed_code : String
  violation_description : String
  rule_id : String
  confidence_score : ℚ
deriving DecidableEq

/-! ### Heuristic fixers (`_fix_indentation` .. `_fix_naming_convention`) -/

/-- `_fix_indentation`. -/
def fix_indentation (line : String) : String :=
  let line := pyExpandTabs4 line
  let stripped := String.mk (lstripL line.toList)
  if stripped ≠ "" then
    let indent_level := (line.toList.length - stripped.toList.length) / 4
    String.mk (List.replicate (4 * indent_level) ' ') ++ stripped
  else line

def isOpChar (c : Char) : Bool :=
  c = '=' || c = '+' || c = '-' || c = '*' || c = '/' || c = '%' ||
  c = '<' || c = '>' || c = '!'

/-- `re.sub` with pattern: an operator character with an optional `=`,
then any following whitespace; replaced by the operator plus one space. -/
def subSpacing1F : Nat → List Char → List Char
  | 0, l => l
  | _, [] => []
  | f + 1, c :: cs =>
    if isOpChar c then
      match cs with
      | '=' :: rest => c :: '=' :: ' ' :: subSpacing1F f (rest.dropWhile pyIsSpace)
      | _ => c :: ' ' :: subSpacing1F f (cs.dropWhile pyIsSpace)
    else c :: subSpacing1F f cs

/-- `re.sub` with pattern: any whitespace then an operator character with
an optional `=`; replaced by one space plus the operator. -/
def subSpacing2F : Nat → List Char → List Char
  | 0, l => l
  | _, [] => []
  | f + 1, c :: cs =>
    match (c :: cs).dropWhile pyIsSpace with
    | o :: rest2 =>
      if isOpChar o then
        match rest2 with
        | '=' :: rest3 => ' ' :: o :: '=' :: subSpacing2F f rest3
        | _ => ' ' :: o :: subSpacing2F f rest2
      else c :: subSpacing2F f cs
    | [] => c :: subSpacing2F f cs

/-- `re.sub` with pattern: a comma directly followed by a non-space;
replaced by comma, space, that character. -/
def subComma : List Char → List Char
  | [] => []
  | ',' :: d :: rest =>
    if ¬ pyIsSpace d then ',' :: ' ' :: d :: subComma rest
    else ',' :: subComma (d :: rest)
  | c :: cs => c :: subComma cs

/-- `re.sub` with pattern: an opening parenthesis followed by whitespace;
the whitespace is removed. -/
def subOpenParenF : Nat → List Char → List Char
  | 0, l => l
  | _, [] => []
  | f + 1, c :: cs =>
    if c = '(' then
      match cs with
      | d :: _ =>
        if pyIsSpace d then '(' :: subOpenParenF f (cs.dropWhile pyIsSpace)
        else '(' :: subOpenParenF f cs
      | [] => ['(']
    else c :: subOpenParenF f cs

/-- `re.sub` with pattern: whitespace followed by a closing parenthesis;
the whitespace is removed.  A match needs the full whitespace run at the
current position to be directly followed by the parenthesis. -/
def subCloseParenF : Nat → List Char → List Char
  | 0, l => l
  | _, [] => []
  | f + 1, c :: cs =>
    if pyIsSpace c then
      match (c :: cs).dropWhile pyIsSpace with
      | ')' :: rest => ')' :: subCloseParenF f rest
      | _ => c :: subCloseParenF f cs
    else c :: subCloseParenF f cs

/-- `_fix_spacing`: the four spacing rewrites, then a right strip. -/
def fix_spacing (line : String) : String :=
  let l1 := subSpacing1F line.toList.length line.toList
  let l2 := subSpacing2F l1.length l1
  let l3 := subComma l2
  let l4 := subOpenParenF l3.length l3
  let l5 := subCloseParenF l4.length l4
  pyRstripStr (String.mk l5)

/-- `_fix_imports`. -/
def fix_imports (line : String) : String :=
  if pyStartsWith "import " (pyStripStr line) || pyStartsWith "from " (pyStripStr line) then
    pyStripStr line
  else line

/-- The inner loop of `_fix_line_length`: the first index `i` in
`[1, parts.length)` whose joined prefix is shorter than `max_length`. -/
def findBreakIdx (bp : String) (parts : List String) (max_length : Nat) : Nat → Nat → Option Nat
  | 0, _ => none
  | fuel + 1, i =>
    if i < parts.length then
      if (pyJoin bp (parts.take i)).toList.length < max_length then some i
      else findBreakIdx bp parts max_length fuel (i + 1)
    else none

/-- `_fix_line_length` with the default `max_length = 88`. -/
def fix_line_length (line : String) : String :=
  if line.toList.length ≤ 88 then line
  else
    let stripped := pyStripStr line
    let tryBp : String → Option String := fun bp =>
      if pyContainsSub bp stripped then
        let parts := pySplitSub bp stripped
        if 1 < parts.length then
          match findBreakIdx bp parts 88 parts.length 1 with
          | some i =>
            some (pyJoin bp (parts.take i) ++ pyRstripStr bp ++ "\n" ++ "    " ++
                  pyJoin bp (parts.drop i))
          | none => none
        else none
      else none
    match tryBp ", " with
    | some r => r
    | none =>
    match tryBp " and " with
    | some r => r
    | none =>
    match tryBp " or " with
    | some r => r
    | none =>
    match tryBp " + " with
    | some r => r
    | none =>
    match tryBp " - " with
    | some r => r
    | none => line

def isLowerAZ (c : Char) : Bool := 'a' ≤ c && c ≤ 'z'
def isUpperAZ (c : Char) : Bool := 'A' ≤ c && c ≤ 'Z'
def isDigit09 (c : Char) : Bool := '0' ≤ c && c ≤ '9'
def isAlnumAZ (c : Char) : Bool := isLowerAZ c || isUpperAZ c || isDigit09 c
def isWordChar (c : Char) : Bool := isAlnumAZ c || c = '_'

/-- Maximal runs of word characters in a line (used to evaluate the
word-boundary anchored camelCase regex).  Fuel-based, `fuel = l.length`
suffices. -/
def wordRunsF : Nat → List Char → List (List Char)
  | 0, _ => []
  | _, [] => []
  | f + 1, c :: cs =>
    if isWordChar c then
      ((c :: cs).takeWhile isWordChar) :: wordRunsF f ((c :: cs).dropWhile isWordChar)
    else wordRunsF f cs

def wordRuns (l : List Char) : List (List Char) :=
  wordRunsF l.length l

/-- The camelCase word regex of `_fix_naming_convention`: a word-boundary
delimited run of letters and digits that starts with a lowercase letter
and contains an uppercase letter. -/
def isCamelWord (w : List Char) : Bool :=
  w.all isAlnumAZ &&
  (match w with
   | [] => false
   | c :: _ => isLowerAZ c) &&
  w.any isUpperAZ

/-- First rewrite of `camel_to_snake`: any character followed by an
uppercase letter and a non-empty greedy run of lowercase letters gets an
underscore inserted after the first character. -/
def camelSub1F : Nat → List Char → List Char
  | 0, l => l
  | _, [] => []
  | f + 1, c1 :: cs =>
    match cs with
    | u :: rest =>
      if isUpperAZ u && (match rest with | r :: _ => isLowerAZ r | [] => false) then
        let run := rest.takeWhile isLowerAZ
        c1 :: '_' :: u :: run ++ camelSub1F f (rest.drop run.length)
      else c1 :: camelSub1F f cs
    | [] => [c1]

/-- Second rewrite of `camel_to_snake`: a lowercase letter or digit
followed by an uppercase letter gets an underscore inserted between. -/
def camelSub2 : List Char → List Char
  | [] => []
  | c1 :: c2 :: rest =>
    if (isLowerAZ c1 || isDigit09 c1) && isUpperAZ c2 then
      c1 :: '_' :: c2 :: camelSub2 rest
    else c1 :: camelSub2 (c2 :: rest)
  | [c] => [c]

def camel_to_snake (name : List Char) : List Char :=
  let s1 := camelSub1F name.length name
  (camelSub2 s1).map Char.toLower

/-- `_fix_naming_convention` (its `problematic_code` argument is unused in
the source as well). -/
def fix_naming_convention (line : String) (_problematic_code : String) : String :=
  let words := (wordRuns line.toList).filter isCamelWord
  words.foldl
    (fun l w => pyReplace l (String.mk w) (String.mk (camel_to_snake w))) line

/-- `_generate_auto_fix`.  (The source wraps the body in a broad
`try/except` returning the original line; no branch here can fail.) -/
def generate_auto_fix (original_line problematic_code violation_description : String) :
    String :=
  let desc := pyLower violation_description
  if pyContainsSub "indentation" desc then fix_indentation original_line
  else if pyContainsSub "space" desc then fix_spacing original_line
  else if pyContainsSub "import" desc then fix_imports original_line
  else if pyContainsSub "line too long" desc then fix_line_length original_line
  else if pyContainsSub "naming" desc || pyContainsSub "convention" desc then
    fix_naming_convention original_line problematic_code
  else pyRstripStr original_line ++ "\n"

/-- `_create_fix_from_violation`.  The Python body is wrapped in
`try/except → None`; every failure path below is an explicit `none`. -/
def create_fix_from_violation (violation : Violation) (lines : List String)
    (file_path : String) : Option CodeFix :=
  match violation.line_number with
  | none => none
  | some n =>
    if n < 1 ∨ (lines.length : Int) < n then none
    else
      let original_line := lines.getD (n - 1).toNat ""
      let suggested0 := pyStripStr (violation.suggested_fix.getD "")
      let suggested :=
        if suggested0 = "" then
          let problematic := pyStripStr (violation.problematic_code.getD "")
          if problematic ≠ "" then
            generate_auto_fix original_line problematic
              (violation.violation_description.getD "")
          else suggested0
        else suggested0
      if suggested = "" then none
      else some
        { file_path := file_path
          line_number := n
          column_number := violation.column_number
          original_code := original_line
          fixed_code := suggested
          violation_description := violation.violation_description.getD ""
          rule_id := violation.rule_id.getD "unknown"
          confidence_score := violation.confidence_score.getD 0 }

/-- Stable insertion of a fix into a list sorted by descending line
number: the new (earlier) element goes before an equal key. -/
def insertFixDesc (x : CodeFix) : List CodeFix → List CodeFix
  | [] => [x]
  | y :: ys => if y.line_number ≤ x.line_number then x :: y :: ys else y :: insertFixDesc x ys

/-- `fixes.sort(key=lambda x: x.line_number, reverse=True)`: CPython
`list.sort` is stable, and with `reverse=True` equal keys keep their
original order.  A stable descending sort is extensionally unique, so this
structurally recursive stable insertion sort computes the same list. -/
def sortFixesDesc (l : List CodeFix) : List CodeFix :=
  l.foldr insertFixDesc []

/-- `_parse_violations_to_fixes`. -/
def parse_violations_to_fixes (file_path : String) (violations : List Violation)
    (file_content : String) : List CodeFix :=
  let lines := pySplitChar '\n' file_content
  sortFixesDesc (violations.filterMap
    (fun v => create_fix_from_violation v lines file_path))

/-- One iteration of the loop in `_apply_fixes`. -/
def applyFixStep (ls : List String) (fix : CodeFix) : List String :=
  if 1 ≤ fix.line_number ∧ fix.line_number ≤ (ls.length : Int) then
    ls.set (fix.line_number - 1).toNat (pyRstripStr fix.fixed_code)
  else ls

def apply_fixes_lines (ls : List String) (fixes : List CodeFix) : List String :=
  fixes.foldl applyFixStep ls

/-- `_apply_fixes`. -/
def apply_fixes (original_content : String) (fixes : List CodeFix) : String :=
  joinNL (apply_fixes_lines (pySplitChar '\n' original_content) fixes)

/-! ### `difflib.unified_diff`

`_generate_unified_diff` calls the CPython standard library
(`difflib.SequenceMatcher(None, a, b)` with `unified_diff(..., lineterm='')`).
The definitions below are a direct translation of CPython `difflib.py`
(`__chain_b`, `find_longest_match`, `get_matching_blocks`, `get_opcodes`,
`get_grouped_opcodes`, `_format_range_unified`, `unified_diff`).  Because
the matcher is constructed with `isjunk = None`, the junk set is empty and
the two junk-extension loops of `find_longest_match` never fire; they are
therefore omitted.  The autojunk popularity filter (active only for
sequences of 200 or more lines) is included.  While-loops are expressed by
structural recursion on an explicit fuel that is always sufficient. -/

def b2jUpsert (m : List (String × List Nat)) (k : String) (j : Nat) :
    List (String × List Nat) :=
  if m.any (fun p => p.1 = k) then
    m.map (fun p => if p.1 = k then (p.1, p.2 ++ [j]) else p)
  else m ++ [(k, [j])]

def b2jBuildAux : List (String × List Nat) → Nat → List String → List (String × List Nat)
  | m, _, [] => m
  | m, j, e :: es => b2jBuildAux (b2jUpsert m e j) (j + 1) es

/-- `__chain_b`: map each line of `b` to the ascending list of its indices,
then drop "popular" entries when `autojunk` applies. -/
def chainB (b : List String) : List (String × List Nat) :=
  let m := b2jBuildAux [] 0 b
  if 200 ≤ b.length then
    m.filter (fun p => ¬ (b.length / 100 + 1 < p.2.length))
  else m

def b2jGet (m : List (String × List Nat)) (k : String) : List Nat :=
  match m.find? (fun p => p.1 = k) with
  | some p => p.2
  | none => []

def jlGet (m : List (Nat × Nat)) (j : Nat) : Nat :=
  match m.find? (fun p => p.1 = j) with
  | some p => p.2
  | none => 0

/-- Inner loop of `find_longest_match` over the occurrence list of `a[i]`
in `b` (ascending), with the `continue`/`break` guards of the source. -/
def flmInner (blo bhi : Nat) (j2len : List (Nat × Nat)) (i : Nat) :
    List Nat → List (Nat × Nat) → Nat × Nat × Nat → List (Nat × Nat) × (Nat × Nat × Nat)
  | [], newj2len, best => (newj2len, best)
  | j :: js, newj2len, best =>
    if j < blo then flmInner blo bhi j2len i js newj2len best
    else if bhi ≤ j then (newj2len, best)
    else
      let k := jlGet j2len (j - 1) + 1
      let newj2len2 := newj2len ++ [(j, k)]
      let best2 := if best.2.2 < k then (i + 1 - k, j + 1 - k, k) else best
      flmInner blo bhi j2len i js newj2len2 best2

/-- Outer loop of `find_longest_match` over `i` in `[alo, ahi)`. -/
def flmOuterF (a : List String) (b2j : List (String × List Nat)) (blo bhi : Nat) :
    Nat → Nat → List (Nat × Nat) → Nat × Nat × Nat → Nat × Nat × Nat
  | 0, _, _, best => best
  | fuel + 1, i, j2len, best =>
    let js := b2jGet b2j (a.getD i "")
    let r := flmInner blo bhi j2len i js [] best
    flmOuterF a b2j blo bhi fuel (i + 1) r.1 r.2

/-- Extension of the best match to the left by equal elements. -/
def extLeftF (a b : List String) (alo blo : Nat) :
    Nat → Nat × Nat × Nat → Nat × Nat × Nat
  | 0, best => best
  | f + 1, (besti, bestj, bestsize) =>
    if alo < besti ∧ blo < bestj ∧ a.getD (besti - 1) "" = b.getD (bestj - 1) "" then
      extLeftF a b alo blo f (besti - 1, bestj - 1, bestsize + 1)
    else (besti, bestj, bestsize)

/-- Extension of the best match to the right by equal elements. -/
def extRightF (a b : List String) (ahi bhi : Nat) :
    Nat → Nat × Nat × Nat → Nat × Nat × Nat
  | 0, best => best
  | f + 1, (besti, bestj, bestsize) =>
    if besti + bestsize < ahi ∧ bestj + bestsize < bhi ∧
        a.getD (besti + bestsize) "" = b.getD (bestj + bestsize) "" then
      extRightF a b ahi bhi f (besti, bestj, bestsize + 1)
    else (besti, bestj, bestsize)

def find_longest_match (a b : List String) (b2j : List (String × List Nat))
    (alo ahi blo bhi : Nat) : Nat × Nat × Nat :=
  let best := flmOuterF a b2j blo bhi (ahi - alo) alo [] (alo, blo, 0)
  let best := extLeftF a b alo blo best.1 best
  extRightF a b ahi bhi (ahi + bhi) best

/-- The queue loop of `get_matching_blocks`.  The Python queue is a stack
(`append`/`pop` at the end); modelled with list-head push and pop. -/
def gmbLoopF (a b : List String) (b2j : List (String × List Nat)) :
    Nat → List (Nat × Nat × Nat × Nat) → List (Nat × Nat × Nat) → List (Nat × Nat × Nat)
  | 0, _, acc => acc
  | _, [], acc => acc
  | f + 1, (alo, ahi, blo, bhi) :: queue, acc =>
    let m := find_longest_match a b b2j alo ahi blo bhi
    let i := m.1
    let j := m.2.1
    let k := m.2.2
    if k ≠ 0 then
      let q1 := if alo < i ∧ blo < j then (alo, i, blo, j) :: queue else queue
      let q2 := if i + k < ahi ∧ j + k < bhi then (i + k, ahi, j + k, bhi) :: q1 else q1
      gmbLoopF a b b2j f q2 (acc ++ [(i, j, k)])
    else gmbLoopF a b b2j f queue acc

/-- Ascending lexicographic order on matching-block triples. -/
def blockLeB (x y : Nat × Nat × Nat) : Bool :=
  decide (x.1 < y.1) ||
  (decide (x.1 = y.1) &&
    (decide (x.2.1 < y.2.1) || (decide (x.2.1 = y.2.1) && decide (x.2.2 ≤ y.2.2))))

/-- Stable ascending insertion modelling `matching_blocks.sort()`. -/
def insAscBlock (x : Nat × Nat × Nat) : List (Nat × Nat × Nat) → List (Nat × Nat × Nat)
  | [] => [x]
  | y :: ys => if blockLeB x y then x :: y :: ys else y :: insAscBlock x ys

/-- The adjacent-blocks collapsing loop of `get_matching_blocks`. -/
def collapseBlocks : Nat → Nat → Nat → List (Nat × Nat × Nat) → List (Nat × Nat × Nat)
  | i1, j1, k1, [] => if k1 ≠ 0 then [(i1, j1, k1)] else []
  | i1, j1, k1, (i2, j2, k2) :: rest =>
    if i1 + k1 = i2 ∧ j1 + k1 = j2 then collapseBlocks i1 j1 (k1 + k2) rest
    else (if k1 ≠ 0 then [(i1, j1, k1)] else []) ++ collapseBlocks i2 j2 k2 rest

def get_matching_blocks (a b : List String) : List (Nat × Nat × Nat) :=
  let b2j := chainB b
  let blocks := gmbLoopF a b b2j (2 * (a.length + b.length) + 4)
    [(0, a.length, 0, b.length)] []
  let sorted := blocks.foldr insAscBlock []
  collapseBlocks 0 0 0 sorted ++ [(a.length, b.length, 0)]

/-- A 5-tuple `(tag, i1, i2, j1, j2)` of `get_opcodes`. -/
structure OpcodeT where
  tag : String
  i1 : Nat
  i2 : Nat
  j1 : Nat
  j2 : Nat
deriving DecidableEq

def opcodesLoop : Nat → Nat → List (Nat × Nat × Nat) → List OpcodeT
  | _, _, [] => []
  | i, j, (ai, bj, size) :: rest =>
    let pre : List OpcodeT :=
      if i < ai ∧ j < bj then [⟨"replace", i, ai, j, bj⟩]
      else if i < ai then [⟨"delete", i, ai, j, bj⟩]
      else if j < bj then [⟨"insert", i, ai, j, bj⟩]
      else []
    let eq : List OpcodeT :=
      if size ≠ 0 then [⟨"equal", ai, ai + size, bj, bj + size⟩] else []
    pre ++ eq ++ opcodesLoop (ai + size) (bj + size) rest

def get_opcodes (a b : List String) : List OpcodeT :=
  opcodesLoop 0 0 (get_matching_blocks a b)

def adjustFirstGroup (n : Nat) : List OpcodeT → List OpcodeT
  | [] => []
  | c :: rest =>
    if c.tag = "equal" then
      { c with i1 := max c.i1 (c.i2 - n), j1 := max c.j1 (c.j2 - n) } :: rest
    else c :: rest

def adjustLastGroup (n : Nat) (codes : List OpcodeT) : List OpcodeT :=
  match codes.getLast? with
  | none => []
  | some c =>
    if c.tag = "equal" then
      codes.dropLast ++ [{ c with i2 := min c.i2 (c.i1 + n), j2 := min c.j2 (c.j1 + n) }]
    else codes

/-- The grouping loop of `get_grouped_opcodes`. -/
def groupLoop (n : Nat) (group : List OpcodeT) : List OpcodeT → List (List OpcodeT)
  | [] =>
    match group with
    | [] => []
    | [g] => if g.tag = "equal" then [] else [[g]]
    | _ => [group]
  | c :: rest =>
    if c.tag = "equal" ∧ n + n < c.i2 - c.i1 then
      (group ++ [{ c with i2 := min c.i2 (c.i1 + n), j2 := min c.j2 (c.j1 + n) }]) ::
      groupLoop n [{ c with i1 := max c.i1 (c.i2 - n), j1 := max c.j1 (c.j2 - n) }] rest
    else groupLoop n (group ++ [c]) rest

def get_grouped_opcodes (a b : List String) (n : Nat) : List (List OpcodeT) :=
  let codes := get_opcodes a b
  let codes := if codes = [] then [⟨"equal", 0, 1, 0, 1⟩] else codes
  groupLoop n [] (adjustLastGroup n (adjustFirstGroup n codes))

def format_range_unified (start stop : Nat) : String :=
  let beginning := start + 1
  let length := stop - start
  if length = 1 then toString beginning
  else if length = 0 then toString (beginning - 1) ++ "," ++ toString length
  else toString beginning ++ "," ++ toString length

def renderGroup (a b : List String) (lineterm : String) (group : List OpcodeT) :
    List String :=
  match group with
  | [] => []
  | first :: _ =>
    let last := (group.getLast?).getD first
    let file1 := format_range_unified first.i1 last.i2
    let file2 := format_range_unified first.j1 last.j2
    ("@@ -" ++ file1 ++ " +" ++ file2 ++ " @@" ++ lineterm) ::
    group.flatMap (fun c =>
      if c.tag = "equal" then ((a.take c.i2).drop c.i1).map (fun l => " " ++ l)
      else
        (if c.tag = "replace" ∨ c.tag = "delete" then
          ((a.take c.i2).drop c.i1).map (fun l => "-" ++ l)
        else []) ++
        (if c.tag = "replace" ∨ c.tag = "insert" then
          ((b.take c.j2).drop c.j1).map (fun l => "+" ++ l)
        else []))

/-- `difflib.unified_diff(a, b, fromfile, tofile, lineterm=lineterm)` with
empty file dates, as the list of yielded strings. -/
def unifiedDiff (a b : List String) (fromfile tofile lineterm : String) : List String :=
  match get_grouped_opcodes a b 3 with
  | [] => []
  | g :: gs =>
    ["--- " ++ fromfile ++ lineterm, "+++ " ++ tofile ++ lineterm] ++
    renderGroup a b lineterm g ++ gs.flatMap (renderGroup a b lineterm)

/-- `_generate_unified_diff`: splits with `splitlines(keepends=True)`,
renders with `fromfile=f"a/{file_path}"`, `tofile=f"b/{file_path}"` and
`lineterm=''`, and joins the yielded strings with the empty string. -/
def generate_unified_diff (file_path original_content modified_content : String) :
    String :=
  joinEmpty (unifiedDiff (pySplitLinesKE original_content)
    (pySplitLinesKE modified_content) ("a/" ++ file_path) ("b/" ++ file_path) "")

/-- The pure core of `generate_file_diff`: reading the source file and
writing the diff and metadata files are abstracted away; the function
returns the fixes put into `DiffFile.fixes_applied` together with the
rendered `diff_content`, or `none` where the source returns `None`. -/
def generate_file_diff_core (file_path original_content : String)
    (violations : List Violation) : Option (List CodeFix × String) :=
  if violations = [] then none
  else
    let fixes := parse_violations_to_fixes file_path violations original_content
    if fixes = [] then none
    else some (fixes,
      generate_unified_diff file_path original_content
        (apply_fixes original_content fixes))

/-! ### Git manager: manual diff application (`src/git/git_manager.py`) -/

/-- A parsed hunk of `_parse_diff_content` (its `type` key is always the
string `hunk`, so it is not carried). -/
structure Hunk where
  old_range : String
  new_range : String
  lines : List String
deriving DecidableEq

/-- Python dict truthiness of the `current_file` variable (`None` and the
empty string are falsy). -/
def pyTruthyOptStr : Option String → Bool
  | none => false
  | some s => s ≠ ""

/-- Assignment `changes[k] = v` on an insertion-ordered Python dict. -/
def changesSet (d : List (String × List Hunk)) (k : String) (v : List Hunk) :
    List (String × List Hunk) :=
  if d.any (fun p => p.1 = k) then
    d.map (fun p => if p.1 = k then (k, v) else p)
  else d ++ [(k, v)]

/-- `current_changes[-1]['lines'].append(line)`. -/
def appendToLastHunk (hs : List Hunk) (l : String) : List Hunk :=
  match hs.getLast? with
  | none => hs
  | some h => hs.dropLast ++ [{ h with lines := h.lines ++ [l] }]

/-- One iteration of the line loop of `_parse_diff_content`; the state is
`(changes, current_file, current_changes)`. -/
def parseDiffLine (st : List (String × List Hunk) × Option String × List Hunk)
    (line : String) : List (String × List Hunk) × Option String × List Hunk :=
  let changes := st.1
  let current_file := st.2.1
  let current_changes := st.2.2
  if pyStartsWith "--- " line then
    let saved :=
      if pyTruthyOptStr current_file ∧ current_changes ≠ [] then
        (changesSet changes (current_file.getD "") current_changes, ([] : List Hunk))
      else (changes, current_changes)
    let cf := pyStripStr (pyDrop 4 line)
    let cf := if pyStartsWith "a/" cf then pyDrop 2 cf else cf
    (saved.1, some cf, saved.2)
  else if pyStartsWith "+++ " line then
    let fp := pyStripStr (pyDrop 4 line)
    if pyStartsWith "b/" fp then (changes, some (pyDrop 2 fp), current_changes)
    else (changes, current_file, current_changes)
  else if pyStartsWith "@@" line then
    let hunk_info := pyStripStr ((pySplitSub "@@" line).getD 1 "")
    let parts := pySplitWS hunk_info
    if 2 ≤ parts.length then
      let old_range := pyDrop 1 (parts.getD 0 "")
      let new_range := pyDrop 1 (parts.getD 1 "")
      (changes, current_file, current_changes ++ [⟨old_range, new_range, []⟩])
    else (changes, current_file, current_changes)
  else if current_changes ≠ [] ∧
      (pyStartsWith "+" line ∨ pyStartsWith "-" line ∨ pyStartsWith " " line) then
    (changes, current_file, appendToLastHunk current_changes line)
  else (changes, current_file, current_changes)

/-- `_parse_diff_content`. -/
def parse_diff_content (diff_content : String) : List (String × List Hunk) :=
  let st := (pySplitChar '\n' diff_content).foldl parseDiffLine ([], none, [])
  if pyTruthyOptStr st.2.1 ∧ st.2.2 ≠ [] then
    changesSet st.1 (st.2.1.getD "") st.2.2
  else st.1

/-- The replacement loop of `_apply_hunk`: a line whose stripped content
equals a stripped deletion line is replaced by the additions, which are
then emptied (`additions = []  # Only add once`); later matching lines are
therefore replaced by nothing. -/
def apply_hunk_loop (deletions additions : List String) : List String → List String
  | [] => []
  | l :: ls =>
    if deletions.any (fun d => pyStripStr l = pyStripStr d) then
      additions ++ apply_hunk_loop deletions [] ls
    else l :: apply_hunk_loop deletions additions ls

/-- `_apply_hunk`: partitions the hunk lines by their one-character
marker and runs the replacement loop.  (The markers are mutually
exclusive, so the `if/elif` chain of the source is a plain partition; the
`context_lines` list it also builds is never used.)  Note the function has
no failure outcome: it always returns the modified lines. -/
def apply_hunk (ls : List String) (hunk : Hunk) : List String :=
  let additions := (hunk.lines.filter (fun l => pyStartsWith "+" l)).map (pyDrop 1)
  let deletions := (hunk.lines.filter (fun l => pyStartsWith "-" l)).map (pyDrop 1)
  apply_hunk_loop deletions additions ls

/-- `_apply_file_changes`: reading and writing the target file are
abstracted into the `file_found` flag (false models the early
`return False` when the path does not exist) and the `ls` line list.
Every entry of a parsed change list is a hunk, so the loop applies
`_apply_hunk` to each; the function then returns `True`. -/
def apply_file_changes (file_found : Bool) (ls : List String) (changes : List Hunk) :
    Bool × List String :=
  if file_found then (true, changes.foldl apply_hunk ls) else (false, ls)

/-! ### Worker agent (`src/agents/worker_agent.py`)

Python values produced by `json.loads` and the violation dicts built by
the worker are modelled by one JSON value type.  `json.loads` itself is
embedded as a strict JSON parser returning `none` where the Python call
raises (the non-finite literals `NaN`/`Infinity`, which CPython accepts
but which cannot carry over to `ℚ`, do not occur in any input considered
here). -/

inductive PyJson where
  | null
  | bool (b : Bool)
  | num (q : ℚ)
  | str (s : String)
  | arr (xs : List PyJson)
  | obj (kvs : List (String × PyJson))

def jsonWsChar (c : Char) : Bool :=
  c = ' ' || c = '\t' || c = '\n' || c = '\r'

def skipWs (l : List Char) : List Char :=
  l.dropWhile jsonWsChar

def hexVal (c : Char) : Option Nat :=
  if isDigit09 c then some (c.toNat - 48)
  else if 'a' ≤ c ∧ c ≤ 'f' then some (c.toNat - 87)
  else if 'A' ≤ c ∧ c ≤ 'F' then some (c.toNat - 55)
  else none

/-- JSON string body parser (after the opening quote); `acc` is reversed. -/
def jsonStringAuxF : Nat → List Char → List Char → Option (String × List Char)
  | 0, _, _ => none
  | _ + 1, _, [] => none
  | f + 1, acc, c :: rest =>
    if c = '"' then some (String.mk acc.reverse, rest)
    else if c = '\\' then
      match rest with
      | 'n' :: r => jsonStringAuxF f ('\n' :: acc) r
      | 't' :: r => jsonStringAuxF f ('\t' :: acc) r
      | 'r' :: r => jsonStringAuxF f ('\r' :: acc) r
      | 'b' :: r => jsonStringAuxF f ('\x08' :: acc) r
      | 'f' :: r => jsonStringAuxF f ('\x0c' :: acc) r
      | '/' :: r => jsonStringAuxF f ('/' :: acc) r
      | '\\' :: r => jsonStringAuxF f ('\\' :: acc) r
      | '"' :: r => jsonStringAuxF f ('"' :: acc) r
      | 'u' :: h1 :: h2 :: h3 :: h4 :: r =>
        match hexVal h1, hexVal h2, hexVal h3, hexVal h4 with
        | some a, some b, some c2, some d =>
          jsonStringAuxF f (Char.ofNat (((a * 16 + b) * 16 + c2) * 16 + d) :: acc) r
        | _, _, _, _ => none
      | _ => none
    else if c.toNat < 32 then none
    else jsonStringAuxF f (c :: acc) rest

/-- Digit run: value, number of digits, rest. -/
def digitRun (acc : Nat) (cnt : Nat) : List Char → Nat × Nat × List Char
  | [] => (acc, cnt, [])
  | c :: rest =>
    if isDigit09 c then digitRun (acc * 10 + (c.toNat - 48)) (cnt + 1) rest
    else (acc, cnt, c :: rest)

/-- JSON number parser following the JSON grammar (integer part with no
leading zeros, optional fraction, optional exponent), producing an exact
rational. -/
def jsonNumber (l : List Char) : Option (ℚ × List Char) :=
  let signedTail := match l with
    | '-' :: r => (true, r)
    | _ => (false, l)
  let neg := signedTail.1
  let l1 := signedTail.2
  match l1 with
  | c :: r =>
    if c = '0' then jsonNumberTail neg 0 r
    else if isDigit09 c then
      let d := digitRun (c.toNat - 48) 1 r
      jsonNumberTail neg d.1 d.2.2
    else none
  | [] => none
where
  jsonNumberTail (neg : Bool) (ip : Nat) (l2 : List Char) : Option (ℚ × List Char) :=
    let fracPart : Option (Nat × Nat × List Char) := match l2 with
      | '.' :: r2 =>
        (match r2 with
         | c2 :: _ =>
           if isDigit09 c2 then
             let d2 := digitRun 0 0 r2
             some (d2.1, d2.2.1, d2.2.2)
           else none
         | [] => none)
      | _ => some (0, 0, l2)
    match fracPart with
    | none => none
    | some (fv, fl, l3) =>
      let expPart : Option (Int × List Char) := match l3 with
        | 'e' :: r3 => jsonExp r3
        | 'E' :: r3 => jsonExp r3
        | _ => some (0, l3)
      match expPart with
      | none => none
      | some (ex, l4) =>
        let mantissa : Int := (ip * 10 ^ fl + fv : Nat)
        let mantissa := if neg then -mantissa else mantissa
        let shift : Int := ex - (fl : Int)
        let q : ℚ :=
          if 0 ≤ shift then mkRat (mantissa * 10 ^ shift.toNat) 1
          else mkRat mantissa (10 ^ (-shift).toNat)
        some (q, l4)
  jsonExp (r3 : List Char) : Option (Int × List Char) :=
    let signedTail2 : Bool × List Char := match r3 with
      | '+' :: r4 => (false, r4)
      | '-' :: r4 => (true, r4)
      | _ => (false, r3)
    match signedTail2.2 with
    | c3 :: _ =>
      if isDigit09 c3 then
        let d3 := digitRun 0 0 signedTail2.2
        some (if signedTail2.1 then -(d3.1 : Int) else (d3.1 : Int), d3.2.2)
      else none
    | [] => none

/-- Assignment on an insertion-ordered JSON object (duplicate keys in the
source text keep the first position but the last value, as in CPython). -/
def objUpsert (kvs : List (String × PyJson)) (k : String) (v : PyJson) :
    List (String × PyJson) :=
  if kvs.any (fun p => p.1 = k) then
    kvs.map (fun p => if p.1 = k then (k, v) else p)
  else kvs ++ [(k, v)]

/-- The pending grammar production of the recursive-descent JSON parser:
a value, the member list of an object (after the opening brace or a
comma), or the element list of an array. -/
inductive JTask where
  | val (l : List Char)
  | objm (l : List Char) (acc : List (String × PyJson)) (isFirst : Bool)
  | arrm (l : List Char) (acc : List PyJson) (isFirst : Bool)

/-- The recursive-descent JSON parser, structurally recursive on fuel
(every recursive call decrements it by one; `10 * (input length + 1)`
always suffices). -/
def jsonRunF : Nat → JTask → Option (PyJson × List Char)
  | 0, _ => none
  | f + 1, .val l =>
    (match l with
     | [] => none
     | '"' :: rest =>
       (match jsonStringAuxF (rest.length + 1) [] rest with
        | some (s, r) => some (.str s, r)
        | none => none)
     | '\x7b' :: rest => jsonRunF f (.objm (skipWs rest) [] true)
     | '[' :: rest => jsonRunF f (.arrm (skipWs rest) [] true)
     | c :: _ =>
       if c = 't' then
         if ("true".toList).isPrefixOf l then some (.bool true, l.drop 4) else none
       else if c = 'f' then
         if ("false".toList).isPrefixOf l then some (.bool false, l.drop 5) else none
       else if c = 'n' then
         if ("null".toList).isPrefixOf l then some (.null, l.drop 4) else none
       else if c = '-' ∨ isDigit09 c then
         match jsonNumber l with
         | some (q, r) => some (.num q, r)
         | none => none
       else none)
  | f + 1, .objm l acc isFirst =>
    (match l with
     | '\x7d' :: rest => if isFirst then some (.obj acc, rest) else none
     | '"' :: rest =>
       (match jsonStringAuxF (rest.length + 1) [] rest with
        | none => none
        | some (key, r1) =>
          match skipWs r1 with
          | ':' :: r2 =>
            (match jsonRunF f (.val (skipWs r2)) with
             | none => none
             | some (v, r3) =>
               let acc2 := objUpsert acc key v
               match skipWs r3 with
               | ',' :: r4 => jsonRunF f (.objm (skipWs r4) acc2 false)
               | '\x7d' :: r4 => some (.obj acc2, r4)
               | _ => none)
          | _ => none)
     | _ => none)
  | f + 1, .arrm l acc isFirst =>
    -- one array element followed by a separator or the closing bracket
    let step : List Char → Option (PyJson × List Char) := fun l2 =>
      match jsonRunF f (.val l2) with
      | none => none
      | some (v, r) =>
        match skipWs r with
        | ',' :: r2 => jsonRunF f (.arrm (skipWs r2) (acc ++ [v]) false)
        | ']' :: r2 => some (.arr (acc ++ [v]), r2)
        | _ => none
    (match l with
     | ']' :: rest => if isFirst then some (.arr acc, rest) else step l
     | _ => step l)

/-- `json.loads`: `none` models a raised `JSONDecodeError`. -/
def jsonParse (s : String) : Option PyJson :=
  let l := s.toList
  match jsonRunF (10 * (l.length + 1)) (.val (skipWs l)) with
  | some (v, rest) => if skipWs rest = [] then some v else none
  | none => none

def objHasKey (kvs : List (String × PyJson)) (k : String) : Bool :=
  kvs.any (fun p => p.1 = k)

def objGetD (kvs : List (String × PyJson)) (k : String) : PyJson :=
  match kvs.find? (fun p => p.1 = k) with
  | some p => p.2
  | none => .null

/-- The bullet test of the manual-extraction loop, applied to a stripped
line. -/
def isBulletLine (st : String) : Bool :=
  pyStartsWith "- " st || pyStartsWith "* " st

/-- The violation dict built for one bullet line (keys in source order). -/
def mkManualRecord (desc : String) : PyJson :=
  .obj [("rule_id", .str "manual_extract"),
        ("violation_description", .str desc),
        ("severity", .str "medium"),
        ("confidence_score", .num (mkRat 7 10))]

/-- The manual-extraction loop of `_parse_llm_response`: `cur` is the
pending `current_violation` (fully determined by its description). -/
def manualLoopAcc (acc : List PyJson) (cur : Option String) :
    List String → List PyJson
  | [] => acc ++ (cur.map mkManualRecord).toList
  | l :: ls =>
    let st := pyStripStr l
    if isBulletLine st then
      match cur with
      | some d => manualLoopAcc (acc ++ [mkManualRecord d]) (some (pyDrop 2 st)) ls
      | none => manualLoopAcc acc (some (pyDrop 2 st)) ls
    else manualLoopAcc acc cur ls

def manual_extract (response : String) : List PyJson :=
  manualLoopAcc [] none (pySplitChar '\n' response)

/-- The delimiter scan of `_parse_llm_response`: the slice bounds
`[json_start, json_end)` when `json_start >= 0 and json_end > json_start`. -/
def json_candidate (r : String) : Option (Nat × Nat) :=
  match pyFindChar '\x7b' r, pyRfindChar '\x7d' r with
  | some s, some e => if s < e + 1 then some (s, e + 1) else none
  | some _, none => none
  | none, _ => none

/-- `_parse_llm_response`.  The whole Python body is wrapped in
`try/except → []`; in particular a `json.loads` failure on the delimited
candidate, or a `TypeError` from `"violations" in parsed_response` /
`parsed_response["violations"]` on a non-dict value, returns the empty
list without ever reaching the manual extraction. -/
def parse_llm_response (response : String) : PyJson :=
  match json_candidate response with
  | some (s, e) =>
    (match jsonParse (pySlice response s e) with
     | none => .arr []
     | some v =>
       match v with
       | .obj kvs =>
         if objHasKey kvs "violations" then objGetD kvs "violations"
         else .arr (manual_extract response)
       | .arr xs =>
         if xs.any (fun x => match x with | .str s2 => s2 = "violations" | _ => false)
         then .arr [] else .arr (manual_extract response)
       | .str s2 =>
         if pyContainsSub "violations" s2 then .arr []
         else .arr (manual_extract response)
       | _ => .arr [])
  | none => .arr (manual_extract response)

/-- A retrieved rule as produced by the RAG system
(`RelevantRule` in `src/analysis/rag_system.py`). -/
structure RelevantRule where
  rule_id : String
  title : String
  description : String
  category : String
  severity : String
  similarity : ℚ
deriving DecidableEq

/-- The fields of `RAGContext` consumed by `process_file`. -/
structure RAGCtx where
  relevant_rules : List RelevantRule
  analysis_prompt : String

/-- The fallback violation dict built in `process_file` for one retrieved
rule when the LLM invocation fails (keys in source order). -/
def fallback_violation (rule : RelevantRule) : PyJson :=
  .obj [("rule_id", .str rule.rule_id),
        ("violation_description", .str ("Potential violation of: " ++ rule.title)),
        ("severity", .str rule.severity),
        ("suggested_fix", .str rule.description),
        ("confidence_score", .num rule.similarity),
        ("line_number", .null),
        ("column_number", .null)]

/-- The result object of one worker run (`WorkerResult`; the
`worker_id`, `file_path` and `processing_time` fields are threaded through
unchanged by the source and omitted here). -/
structure WorkerResultM where
  success : Bool
  violations : PyJson
  error_message : Option String

/-- `WorkerAgent.process_file`.  The three external stages (code parsing,
RAG context generation, LLM invocation) are inputs: `Except` failure marks
the exception the corresponding Python call raised.  Parsing or context
failures hit the outer `except` and produce a failed result with an empty
violation list; an LLM failure hits the inner `except`, which builds one
fallback violation per retrieved rule and still reports success.  The
database writes (`_store_violations`, `_update_file_status`) swallow their
own errors and do not influence the result. -/
def process_file (parse_outcome : Except String Unit)
    (rag_outcome : Except String RAGCtx)
    (llm_outcome : Except String String) : WorkerResultM :=
  match parse_outcome with
  | .error e => ⟨false, .arr [], some ("Worker processing failed: " ++ e)⟩
  | .ok _ =>
    match rag_outcome with
    | .error e => ⟨false, .arr [], some ("Worker processing failed: " ++ e)⟩
    | .ok ctx =>
      match llm_outcome with
      | .ok text => ⟨true, parse_llm_response text, none⟩
      | .error _ => ⟨true, .arr (ctx.relevant_rules.map fallback_violation), none⟩

/-! ### Master orchestrator (`src/agents/master_orchestrator.py`) -/

/-- The outcome of one `worker.process_file` task as seen by
`asyncio.gather(..., return_exceptions=True)`: a `WorkerResult` with its
success flag, or an exception object. -/
inductive TaskOutcome where
  | ok (success : Bool)
  | exc
deriving DecidableEq

/-- The session fields involved in the progress-tracking claims
(`AnalysisSession`; id, name, source, timestamps and the result list are
irrelevant to the counters and omitted). -/
structure Session where
  total_files : Nat
  processed_files : Nat
  failed_files : Nat
  status : String
deriving DecidableEq

/-- `_create_session`: counters start at zero, status `in_progress`. -/
def create_session (total : Nat) : Session :=
  { total_files := total, processed_files := 0, failed_files := 0,
    status := "in_progress" }

/-- The per-result counter update in the batch loop of `_process_files`. -/
def count_result (s : Session) (o : TaskOutcome) : Session :=
  match o with
  | .ok true => { s with processed_files := s.processed_files + 1 }
  | .ok false => { s with failed_files := s.failed_files + 1 }
  | .exc => { s with failed_files := s.failed_files + 1 }

/-- Counter updates for one full batch. -/
def process_batch (s : Session) (batch : List TaskOutcome) : Session :=
  batch.foldl count_result s

/-- The batch partition `file_paths[i:i+batch_size]` of the dispatch loop.
Fuel-based (`fuel = l.length` suffices); `bs = 0` cannot occur, since
`range(0, n, 0)` would raise in the source and the configured default is
10. -/
def chunksF (bs : Nat) : Nat → List α → List (List α)
  | 0, _ => []
  | _, [] => []
  | f + 1, l => l.take bs :: chunksF bs f (l.drop bs)

def chunks (bs : Nat) (l : List α) : List (List α) :=
  chunksF bs l.length l

/-- The batch loop of `_process_files` together with its `try/except`.
`outcomes` lists, in dispatch order, the per-file task outcomes; `fault`
models the internal faults the `except` branch catches (worker
initialisation or record-creation failures before the loop, or a fault
inside the loop): `some k` means the fault struck after `k` complete
batches, upon which the session is marked `failed` (and the exception
re-raised); `none` means the run loop finished and the session is marked
`completed`. -/
def process_files (s : Session) (bs : Nat) (outcomes : List TaskOutcome)
    (fault : Option Nat) : Session :=
  match fault with
  | none => { (chunks bs outcomes).foldl process_batch s with status := "completed" }
  | some k => { ((chunks bs outcomes).take k).foldl process_batch s with status := "failed" }

/-! ### Spec-side comparison definitions

These follow the specification text (not the source) and exist only to be
compared against the source-derived definitions above. -/

/-- Right-trim of line terminators only, after the words of the spec for
the application step (the source uses `str.rstrip()`, which trims all
trailing whitespace). -/
def rstripNewlinesStr (s : String) : String :=
  String.mk ((s.toList.reverse.dropWhile (fun c => c = '\n' || c = '\r')).reverse)

/-- The application step as worded by the spec: overwrite the targeted
line with the replacement right-trimmed of line terminators. -/
def apply_fixes_spec (original_content : String) (fixes : List CodeFix) : String :=
  joinNL (fixes.foldl
    (fun ls fix =>
      if 1 ≤ fix.line_number ∧ fix.line_number ≤ (ls.length : Int) then
        ls.set (fix.line_number - 1).toNat (rstripNewlinesStr fix.fixed_code)
      else ls)
    (pySplitChar '\n' original_content))

/-- Key access on a JSON object value (used to state field properties of
the violation dicts). -/
def pyGetKey (v : PyJson) (k : String) : Option PyJson :=
  match v with
  | .obj kvs => (kvs.find? (fun p => p.1 = k)).map (fun p => p.2)
  | _ => none

/-! ## Theorems -/

/-! ### Orchestrator counter lemmas -/

theorem count_result_counters (s : Session) (o : TaskOutcome) :
    (count_result s o).processed_files + (count_result s o).failed_files
      = s.processed_files + s.failed_files + 1 := by
  cases o with
  | ok b => cases b <;> simp [count_result] <;> omega
  | exc => simp [count_result]; omega

theorem count_result_total (s : Session) (o : TaskOutcome) :
    (count_result s o).total_files = s.total_files := by
  cases o with
  | ok b => cases b <;> simp [count_result]
  | exc => simp [count_result]

theorem process_batch_counters (s : Session) (batch : List TaskOutcome) :
    (process_batch s batch).processed_files + (process_batch s batch).failed_files
      = s.processed_files + s.failed_files + batch.length := by
  induction batch generalizing s with
  | nil => simp [process_batch]
  | cons o rest ih =>
    have h1 : process_batch s (o :: rest) = process_batch (count_result s o) rest := by
      simp [process_batch]
    rw [h1, ih, count_result_counters]
    simp only [List.length_cons]
    omega

theorem process_batch_total (s : Session) (batch : List TaskOutcome) :
    (process_batch s batch).total_files = s.total_files := by
  induction batch generalizing s with
  | nil => simp [process_batch]
  | cons o rest ih =>
    have h1 : process_batch s (o :: rest) = process_batch (count_result s o) rest := by
      simp [process_batch]
    rw [h1, ih, count_result_total]

theorem foldl_batches_counters (s : Session) (bs : List (List TaskOutcome)) :
    (bs.foldl process_batch s).processed_files + (bs.foldl process_batch s).failed_files
      = s.processed_files + s.failed_files + (bs.map List.length).sum := by
  induction bs generalizing s with
  | nil => simp
  | cons b rest ih =>
    rw [List.foldl_cons, ih, process_batch_counters]
    simp
    omega

theorem foldl_batches_total (s : Session) (bs : List (List TaskOutcome)) :
    (bs.foldl process_batch s).total_files = s.total_files := by
  induction bs generalizing s with
  | nil => simp
  | cons b rest ih => rw [List.foldl_cons, ih, process_batch_total]

theorem chunksF_length_sum {α : Type _} (bs : Nat) (hbs : 0 < bs) :
    ∀ (f : Nat) (l : List α), l.length ≤ f →
      ((chunksF bs f l).map List.length).sum = l.length := by
  intro f
  induction f with
  | zero =>
    intro l hl
    have : l = [] := List.eq_nil_of_length_eq_zero (Nat.le_zero.mp hl)
    simp [this, chunksF]
  | succ f ih =>
    intro l hl
    cases l with
    | nil => simp [chunksF]
    | cons x xs =>
      have h1 : chunksF bs (f + 1) (x :: xs) =
          (x :: xs).take bs :: chunksF bs f ((x :: xs).drop bs) := rfl
      have h2 : ((x :: xs).drop bs).length ≤ f := by
        simp only [List.length_drop, List.length_cons] at *
        omega
      rw [h1]
      simp only [List.map_cons, List.sum_cons, ih _ h2, List.length_take,
        List.length_drop, List.length_cons]
      omega

theorem chunks_length_sum {α : Type _} (bs : Nat) (hbs : 0 < bs) (l : List α) :
    ((chunks bs l).map List.length).sum = l.length :=
  chunksF_length_sum bs hbs l.length l (Nat.le_refl _)

/-- Claim C1 (amended): after each batch the session counters equal the
number of files dispatched so far; `total_files` is never changed by the
processing loop; a session finalised as `completed` satisfies
`processed_files + failed_files = total_files`; but a session finalised as
`failed` (the run loop faulted after `k` complete batches) has
`processed_files + failed_files` equal to the number of files dispatched
in those `k` batches, which can be less than `total_files`. -/
theorem c1_amended (total bs k : Nat) (outcomes : List TaskOutcome)
    (hbs : 0 < bs) (htot : outcomes.length = total) :
    ((((chunks bs outcomes).take k).foldl process_batch (create_session total)).processed_files
      + (((chunks bs outcomes).take k).foldl process_batch (create_session total)).failed_files
      = ((((chunks bs outcomes).take k)).map List.length).sum)
    ∧ (((chunks bs outcomes).take k).foldl process_batch (create_session total)).total_files
        = total
    ∧ ((process_files (create_session total) bs outcomes none).status = "completed"
        ∧ (process_files (create_session total) bs outcomes none).processed_files
          + (process_files (create_session total) bs outcomes none).failed_files
          = (process_files (create_session total) bs outcomes none).total_files)
    ∧ ((process_files (create_session total) bs outcomes (some k)).status = "failed"
        ∧ (process_files (create_session total) bs outcomes (some k)).processed_files
          + (process_files (create_session total) bs outcomes (some k)).failed_files
          = (((chunks bs outcomes).take k).map List.length).sum) := by
  refine ⟨?_, ?_, ⟨rfl, ?_⟩, ⟨rfl, ?_⟩⟩
  · rw [foldl_batches_counters]
    simp [create_session]
  · rw [foldl_batches_total]
    rfl
  · show ((chunks bs outcomes).foldl process_batch (create_session total)).processed_files
      + ((chunks bs outcomes).foldl process_batch (create_session total)).failed_files
      = ((chunks bs outcomes).foldl process_batch (create_session total)).total_files
    rw [foldl_batches_counters, foldl_batches_total, chunks_length_sum bs hbs]
    simp [create_session, htot]
  · show (((chunks bs outcomes).take k).foldl process_batch (create_session total)).processed_files
      + (((chunks bs outcomes).take k).foldl process_batch (create_session total)).failed_files
      = (((chunks bs outcomes).take k).map List.length).sum
    rw [foldl_batches_counters]
    simp [create_session]

/-- Claim C1, witness: the amended theorem applied to a concrete run of
three files in batches of two. -/
theorem c1_witness :
    (process_files (create_session 3) 2
        [TaskOutcome.ok true, TaskOutcome.ok false, TaskOutcome.exc] none).status
      = "completed"
    ∧ (process_files (create_session 3) 2
        [TaskOutcome.ok true, TaskOutcome.ok false, TaskOutcome.exc] none).processed_files
      + (process_files (create_session 3) 2
        [TaskOutcome.ok true, TaskOutcome.ok false, TaskOutcome.exc] none).failed_files
      = (process_files (create_session 3) 2
        [TaskOutcome.ok true, TaskOutcome.ok false, TaskOutcome.exc] none).total_files :=
  (c1_amended 3 2 1 [TaskOutcome.ok true, TaskOutcome.ok false, TaskOutcome.exc]
    (by decide) (by decide)).2.2.1

/-- Claim C1, counterexample: a fault before the first batch (for example
a worker initialisation failure) finalises the session as `failed` with
`processed_files + failed_files = 0 ≠ 1 = total_files`. -/
theorem c1_counterexample :
    (process_files (create_session 1) 10 [TaskOutcome.ok true] (some 0)).status = "failed"
    ∧ (process_files (create_session 1) 10 [TaskOutcome.ok true] (some 0)).processed_files
      + (process_files (create_session 1) 10 [TaskOutcome.ok true] (some 0)).failed_files
      ≠ (process_files (create_session 1) 10 [TaskOutcome.ok true] (some 0)).total_files :=
  ⟨rfl, by decide⟩

/-- Claim C2: the renderer joins the generator output of
`difflib.unified_diff(..., lineterm='')` with the empty string, so the
`---`, `+++` and `@@` header lines are glued to each other and to the
first content line; `_parse_diff_content` then recognises no hunk at all
on the renderer output, and the round trip reconstructs nothing instead
of the line-level differences between the two texts. -/
theorem c2_roundtrip_failure :
    generate_unified_diff "f.py" "a\n" "b\n"
      = "--- a/f.py+++ b/f.py@@ -1 +1 @@-a\n+b\n"
    ∧ parse_diff_content (generate_unified_diff "f.py" "a\n" "b\n") = [] :=
  ⟨rfl, rfl⟩

/-! ### Manual hunk application (C3) -/

theorem apply_hunk_loop_no_match (dels adds ls : List String)
    (h : ∀ l ∈ ls, ∀ d ∈ dels, pyStripStr l ≠ pyStripStr d) :
    apply_hunk_loop dels adds ls = ls := by
  induction ls generalizing adds with
  | nil => rfl
  | cons l ls ih =>
    have hany : (dels.any (fun d => pyStripStr l = pyStripStr d)) = false := by
      rw [List.any_eq_false]
      intro d hd
      simpa using h l (List.mem_cons_self _ _) d hd
    have h2 : ∀ l2 ∈ ls, ∀ d ∈ dels, pyStripStr l2 ≠ pyStripStr d := by
      intro l2 hl2 d hd
      exact h l2 (List.mem_cons_of_mem _ hl2) d hd
    simp [apply_hunk_loop, hany, ih _ h2]

/-- Claim C3 (amended): manual hunk application has no failure outcome at
all.  A hunk none of whose deletion lines matches leaves the file lines
unchanged (no hunk-level failure is recorded), and the file-level
`_apply_file_changes` succeeds exactly when the target file exists,
regardless of whether any hunk matched — in particular it returns success
even when a hunk's deletion lines are not unique in the file, in which
case the first matching line is replaced by the additions and every later
matching line is deleted. -/
theorem c3_amended (found : Bool) (ls : List String) (changes : List Hunk) (hunk : Hunk)
    (h : ∀ l ∈ ls, ∀ d ∈ hunk.lines, pyStartsWith "-" d = true →
      pyStripStr l ≠ pyStripStr (pyDrop 1 d)) :
    (apply_file_changes found ls changes).1 = found ∧ apply_hunk ls hunk = ls := by
  constructor
  · cases found <;> simp [apply_file_changes]
  · unfold apply_hunk
    apply apply_hunk_loop_no_match
    intro l hl d hd
    simp only [List.mem_map, List.mem_filter] at hd
    obtain ⟨d0, ⟨hd0, hpre⟩, rfl⟩ := hd
    exact h l hl d0 hd0 hpre

/-- Claim C3, witness: the amended theorem applied to a one-line file and
a hunk whose deletion does not occur. -/
theorem c3_witness :
    (apply_file_changes true ["keep\n"] []).1 = true
    ∧ apply_hunk ["keep\n"] ⟨"1", "1", ["-gone"]⟩ = ["keep\n"] :=
  c3_amended true ["keep\n"] [] ⟨"1", "1", ["-gone"]⟩ (by decide)

/-- Claim C3, counterexample: the deletion line `dup` occurs twice in the
target file, yet the file-level apply returns success (`True`), replacing
the first occurrence with the additions and silently deleting the second,
where the claim requires a failure. -/
theorem c3_counterexample :
    (apply_file_changes true ["dup\n", "mid\n", "dup\n"]
        [⟨"1,3", "1,1", ["-dup", "+new"]⟩]).1 = true
    ∧ (apply_file_changes true ["dup\n", "mid\n", "dup\n"]
        [⟨"1,3", "1,1", ["-dup", "+new"]⟩]).2 = ["new", "mid\n"] :=
  ⟨rfl, rfl⟩

/-- Claim C9: fix creation silently drops every violation whose line
number is missing, smaller than one (in particular zero), or greater than
the number of file lines; no exception escapes (the embedding is total
and the source wraps the body in `try/except → None`). -/
theorem c9_out_of_range_dropped (v : Violation) (lines : List String) (p : String)
    (h : v.line_number = none ∨
      ∃ n : Int, v.line_number = some n ∧ (n < 1 ∨ (lines.length : Int) < n)) :
    create_fix_from_violation v lines p = none := by
  unfold create_fix_from_violation
  rcases h with h | ⟨n, hn, hr⟩
  · rw [h]
  · rw [hn]
    simp [hr]

/-- Claim C9, witness: a violation at line zero of a one-line file is
dropped. -/
theorem c9_witness :
    create_fix_from_violation { line_number := some 0 } ["x"] "p" = none :=
  c9_out_of_range_dropped _ _ _ (Or.inr ⟨0, rfl, by decide⟩)

/-! ### Sortedness of the synthesized fixes (C8) -/

theorem mem_insertFixDesc {x y : CodeFix} {l : List CodeFix}
    (h : y ∈ insertFixDesc x l) : y = x ∨ y ∈ l := by
  induction l with
  | nil =>
    simp only [insertFixDesc, List.mem_singleton] at h
    exact Or.inl h
  | cons z zs ih =>
    by_cases hc : z.line_number ≤ x.line_number
    · simp only [insertFixDesc, if_pos hc, List.mem_cons] at h
      rcases h with h | h | h
      · exact Or.inl h
      · exact Or.inr (List.mem_cons.mpr (Or.inl h))
      · exact Or.inr (List.mem_cons.mpr (Or.inr h))
    · simp only [insertFixDesc, if_neg hc, List.mem_cons] at h
      rcases h with h | h
      · exact Or.inr (List.mem_cons.mpr (Or.inl h))
      · rcases ih h with h2 | h2
        · exact Or.inl h2
        · exact Or.inr (List.mem_cons.mpr (Or.inr h2))

theorem insertFixDesc_sorted (x : CodeFix) (l : List CodeFix)
    (hl : l.Pairwise (fun a b => b.line_number ≤ a.line_number)) :
    (insertFixDesc x l).Pairwise (fun a b => b.line_number ≤ a.line_number) := by
  induction l with
  | nil => simp [insertFixDesc]
  | cons z zs ih =>
    rcases List.pairwise_cons.mp hl with ⟨hz, hzs⟩
    by_cases hc : z.line_number ≤ x.line_number
    · simp only [insertFixDesc, if_pos hc]
      refine List.pairwise_cons.mpr ⟨?_, hl⟩
      intro b hb
      rcases List.mem_cons.mp hb with rfl | hb
      · omega
      · have := hz b hb
        omega
    · simp only [insertFixDesc, if_neg hc]
      refine List.pairwise_cons.mpr ⟨?_, ih hzs⟩
      intro b hb
      rcases mem_insertFixDesc hb with rfl | hb
      · omega
      · exact hz b hb

theorem sortFixesDesc_sorted (l : List CodeFix) :
    (sortFixesDesc l).Pairwise (fun a b => b.line_number ≤ a.line_number) := by
  unfold sortFixesDesc
  induction l with
  | nil => simp
  | cons x xs ih => exact insertFixDesc_sorted x _ ih

/-- Claim C8: for every input violation list and file content, the fix
list produced by the synthesizer is sorted by non-increasing line
number. -/
theorem c8_fixes_sorted_descending (p : String) (vs : List Violation) (content : String) :
    (parse_violations_to_fixes p vs content).Pairwise
      (fun a b => b.line_number ≤ a.line_number) := by
  unfold parse_violations_to_fixes
  exact sortFixesDesc_sorted _

/-- Claim C7: when the model invocation fails after parsing and retrieval
succeeded, the worker still reports success and synthesizes exactly one
fallback violation per retrieved rule, whose `rule_id` is the rule id,
whose confidence is the rule's retrieval similarity score, and whose
description is derived from the rule title; the result is a function of
the retrieved rules alone, hence deterministic. -/
theorem c7_llm_failure_fallback (ctx : RAGCtx) (e : String) (rule : RelevantRule) :
    process_file (.ok ()) (.ok ctx) (.error e)
      = ⟨true, .arr (ctx.relevant_rules.map fallback_violation), none⟩
    ∧ (ctx.relevant_rules.map fallback_violation).length = ctx.relevant_rules.length
    ∧ pyGetKey (fallback_violation rule) "rule_id" = some (.str rule.rule_id)
    ∧ pyGetKey (fallback_violation rule) "confidence_score" = some (.num rule.similarity)
    ∧ pyGetKey (fallback_violation rule) "violation_description"
        = some (.str ("Potential violation of: " ++ rule.title)) :=
  ⟨rfl, by simp, rfl, rfl, rfl⟩

/-! ### Response parsing fallback (C6) -/

theorem manualLoopAcc_eq (ls : List String) :
    ∀ (acc : List PyJson) (cur : Option String),
      manualLoopAcc acc cur ls
        = acc ++ (cur.map mkManualRecord).toList
          ++ (((ls.map pyStripStr).filter isBulletLine).map
              (fun l => mkManualRecord (pyDrop 2 l))) := by
  induction ls with
  | nil =>
    intro acc cur
    cases cur <;> simp [manualLoopAcc]
  | cons l ls ih =>
    intro acc cur
    by_cases hb : isBulletLine (pyStripStr l)
    · cases cur with
      | none =>
        simp only [manualLoopAcc, hb, if_pos, List.map_cons, List.filter_cons]
        rw [ih]
        simp [hb]
      | some d =>
        simp only [manualLoopAcc, hb, if_pos, List.map_cons, List.filter_cons]
        rw [ih]
        simp [hb]
    · cases cur with
      | none =>
        simp only [manualLoopAcc, hb, List.map_cons, List.filter_cons]
        simpa [hb] using ih acc none
      | some d =>
        simp only [manualLoopAcc, hb, List.map_cons, List.filter_cons]
        simpa [hb] using ih acc (some d)

/-- Claim C6 (amended): the bullet-line fallback runs exactly when the
response contains no brace-delimited candidate (no opening brace, or the
last closing brace not after the first opening brace): each bullet line
then yields one record with `rule_id = manual_extract`, severity
`medium` and confidence `0.7`, and no bullet lines yield the empty list.
When a delimited candidate exists but `json.loads` raises on it, the
function returns the empty list immediately — the fallback is never
reached. -/
theorem c6_amended (r : String) :
    (json_candidate r = none →
      parse_llm_response r
        = .arr ((((pySplitChar '\n' r).map pyStripStr).filter isBulletLine).map
            (fun l => mkManualRecord (pyDrop 2 l))))
    ∧ (∀ s e : Nat, json_candidate r = some (s, e) → jsonParse (pySlice r s e) = none →
        parse_llm_response r = .arr []) := by
  constructor
  · intro h
    unfold parse_llm_response
    rw [h]
    unfold manual_extract
    rw [manualLoopAcc_eq]
    simp
  · intro s e h hj
    unfold parse_llm_response
    rw [h]
    dsimp only
    rw [hj]

/-- Claim C6, witness: a single bullet line with no braces yields one
manual-extract record; a brace-delimited candidate that is not valid JSON
yields the empty list. -/
theorem c6_witness :
    parse_llm_response "* fix imports" = PyJson.arr [mkManualRecord "fix imports"]
    ∧ parse_llm_response "\x7bbad\x7d" = PyJson.arr [] :=
  ⟨(c6_amended "* fix imports").1 rfl, (c6_amended "\x7bbad\x7d").2 0 5 rfl rfl⟩

/-- Claim C6, counterexample: a response whose brace-delimited candidate
fails to decode but which contains a bullet line returns the empty list,
not the one-record bullet extraction the claim requires. -/
theorem c6_counterexample :
    parse_llm_response "\x7boops\x7d\n- bad code" = PyJson.arr []
    ∧ parse_llm_response "\x7boops\x7d\n- bad code"
        ≠ PyJson.arr [mkManualRecord "bad code"] := by
  refine ⟨rfl, ?_⟩
  intro h
  rw [show parse_llm_response "\x7boops\x7d\n- bad code" = PyJson.arr [] from rfl] at h
  have h2 : ([] : List PyJson) = [mkManualRecord "bad code"] := by injection h
  exact List.noConfusion h2

/-! ### Frame properties of fix application (C10) -/

theorem apply_fixes_lines_length (lines : List String) (fixes : List CodeFix) :
    (apply_fixes_lines lines fixes).length = lines.length := by
  induction fixes generalizing lines with
  | nil => rfl
  | cons f fs ih =>
    have h1 : apply_fixes_lines lines (f :: fs) = apply_fixes_lines (applyFixStep lines f) fs :=
      rfl
    rw [h1, ih]
    unfold applyFixStep
    split
    · exact List.length_set _ _ _
    · rfl

/-- Claim C10 (amended): fix application never inserts or deletes line
slots — the line list keeps its length, every slot targeted by no fix is
unchanged, and a targeted in-range slot holds the *last* fix for that
line with its replacement right-trimmed of all trailing whitespace (the
source uses `str.rstrip()`, not a trim of line terminators only; and a
replacement containing an embedded newline accordingly grows the rendered
text even though the slot count is preserved). -/
theorem c10_amended (lines : List String) (fixes : List CodeFix) (i : Nat)
    (hi : i < lines.length) :
    (apply_fixes_lines lines fixes).length = lines.length
    ∧ (apply_fixes_lines lines fixes)[i]?
      = (match (fixes.filter (fun f => f.line_number = (i : Int) + 1)).getLast? with
         | some f => some (pyRstripStr f.fixed_code)
         | none => lines[i]?) := by
  refine ⟨apply_fixes_lines_length lines fixes, ?_⟩
  induction fixes using List.reverseRecOn with
  | nil => simp [apply_fixes_lines]
  | append_singleton fs f ih =>
    have hstep : apply_fixes_lines lines (fs ++ [f])
        = applyFixStep (apply_fixes_lines lines fs) f := by
      unfold apply_fixes_lines
      rw [List.foldl_append]
      rfl
    have hlen : (apply_fixes_lines lines fs).length = lines.length :=
      apply_fixes_lines_length lines fs
    rw [hstep, List.filter_append]
    by_cases hp : f.line_number = (i : Int) + 1
    · have hcond : 1 ≤ f.line_number ∧ f.line_number ≤ ((apply_fixes_lines lines fs).length : Int) := by
        rw [hlen, hp]
        omega
      have hidx : (f.line_number - 1).toNat = i := by
        rw [hp]
        omega
      unfold applyFixStep
      rw [if_pos hcond, hidx]
      rw [List.getElem?_set_self (by rw [hlen]; exact hi)]
      have hfilter : List.filter (fun f => decide (f.line_number = (i : Int) + 1)) [f] = [f] := by
        simp [hp]
      rw [hfilter, List.getLast?_append]
      rfl
    · have hfilter : List.filter (fun f => decide (f.line_number = (i : Int) + 1)) [f] = [] := by
        simp [hp]
      rw [hfilter, List.append_nil]
      unfold applyFixStep
      split
      · next hcond =>
        have hne : (f.line_number - 1).toNat ≠ i := by
          intro he
          apply hp
          omega
        rw [List.getElem?_set_ne hne]
        exact ih
      · exact ih

/-- Claim C10, witness: the amended theorem applied to a two-line file
and one fix targeting line 2 whose replacement carries a trailing
space. -/
theorem c10_witness :
    (apply_fixes_lines ["a", "b"]
      [⟨"p", 2, none, "b", "B ", "d", "r", 0⟩]).length = 2
    ∧ (apply_fixes_lines ["a", "b"]
      [⟨"p", 2, none, "b", "B ", "d", "r", 0⟩])[1]? = some "B" :=
  c10_amended ["a", "b"] [⟨"p", 2, none, "b", "B ", "d", "r", 0⟩] 1 (by decide)

/-- Claim C10, counterexample: the replacement is right-trimmed of *all*
trailing whitespace, not only of line terminators (a trailing tab is
removed, unlike under the spec-worded variant), and a replacement with an
embedded newline makes the joined text two lines long where the original
had one. -/
theorem c10_counterexample :
    apply_fixes "y" [⟨"p", 1, none, "y", "x\t", "d", "r", 0⟩] = "x"
    ∧ apply_fixes_spec "y" [⟨"p", 1, none, "y", "x\t", "d", "r", 0⟩] = "x\t"
    ∧ ("x" : String) ≠ "x\t"
    ∧ (pySplitChar '\n' (apply_fixes "y" [⟨"p", 1, none, "y", "a\nb", "d", "r", 0⟩])).length = 2
    ∧ (pySplitChar '\n' "y").length = 1 :=
  ⟨rfl, rfl, by decide, rfl, rfl⟩

/-! ### Same-line collisions (C4) -/

/-- Fix creation on a violation with an in-range line and a non-empty
suggested fix. -/
theorem create_fix_suggested (v : Violation) (lines : List String) (p : String) (n : Int)
    (hn : v.line_number = some n)
    (hr : ¬(n < 1 ∨ (lines.length : Int) < n))
    (hs : pyStripStr (v.suggested_fix.getD "") ≠ "") :
    create_fix_from_violation v lines p = some
      { file_path := p, line_number := n, column_number := v.column_number,
        original_code := lines.getD (n - 1).toNat "",
        fixed_code := pyStripStr (v.suggested_fix.getD ""),
        violation_description := v.violation_description.getD "",
        rule_id := v.rule_id.getD "unknown",
        confidence_score := v.confidence_score.getD 0 } := by
  unfold create_fix_from_violation
  rw [hn]
  dsimp only
  rw [if_neg hr]
  simp only [if_neg hs]

/-- Applying two fixes that target the same in-range line leaves the
replacement of the second (last-applied) fix in the slot. -/
theorem apply_two_same_line (lines : List String) (F1 F2 : CodeFix) (n : Int)
    (e1 : F1.line_number = n) (e2 : F2.line_number = n)
    (hn1 : 1 ≤ n) (hn2 : n ≤ (lines.length : Int)) :
    (apply_fixes_lines lines [F1, F2])[(n - 1).toNat]?
      = some (pyRstripStr F2.fixed_code) := by
  have hidx : ((n - 1).toNat : Int) = n - 1 := Int.toNat_of_nonneg (by omega)
  have hilt : (n - 1).toNat < lines.length := by omega
  have hstep1 : applyFixStep lines F1 = lines.set (n - 1).toNat (pyRstripStr F1.fixed_code) := by
    unfold applyFixStep
    rw [e1, if_pos ⟨hn1, hn2⟩]
  have hlen1 : (applyFixStep lines F1).length = lines.length := by
    rw [hstep1, List.length_set]
  have hgen : ∀ ls : List String, ls.length = lines.length →
      applyFixStep ls F2 = ls.set (n - 1).toNat (pyRstripStr F2.fixed_code) := by
    intro ls hls
    unfold applyFixStep
    rw [e2, if_pos ⟨hn1, by rw [hls]; exact hn2⟩]
  have hstep2 : applyFixStep (applyFixStep lines F1) F2
      = (applyFixStep lines F1).set (n - 1).toNat (pyRstripStr F2.fixed_code) :=
    hgen _ hlen1
  show (applyFixStep (applyFixStep lines F1) F2)[(n - 1).toNat]? = _
  rw [hstep2, hstep1, List.set_set, List.getElem?_set_self hilt]

/-- Claim C4 (amended): two violations targeting the same in-range line
both survive fix synthesis, in input order (the sort is stable), and the
fix that survives application on that line is the *last-applied* one,
which is the **last** — not the first — among the same-line fixes in the
sorted list (application walks the list front to back, so the final
overwrite wins). -/
theorem c4_amended (p content : String) (v1 v2 : Violation) (n : Int)
    (h1 : v1.line_number = some n) (h2 : v2.line_number = some n)
    (hr : ¬(n < 1 ∨ ((pySplitChar '\n' content).length : Int) < n))
    (hs1 : pyStripStr (v1.suggested_fix.getD "") ≠ "")
    (hs2 : pyStripStr (v2.suggested_fix.getD "") ≠ "") :
    (parse_violations_to_fixes p [v1, v2] content).map (fun f => f.fixed_code)
      = [pyStripStr (v1.suggested_fix.getD ""), pyStripStr (v2.suggested_fix.getD "")]
    ∧ (apply_fixes_lines (pySplitChar '\n' content)
        (parse_violations_to_fixes p [v1, v2] content))[(n - 1).toNat]?
      = some (pyRstripStr (pyStripStr (v2.suggested_fix.getD ""))) := by
  have hf1 := create_fix_suggested v1 (pySplitChar '\n' content) p n h1 hr hs1
  have hf2 := create_fix_suggested v2 (pySplitChar '\n' content) p n h2 hr hs2
  have hparse : parse_violations_to_fixes p [v1, v2] content
      = [{ file_path := p, line_number := n, column_number := v1.column_number,
           original_code := (pySplitChar '\n' content).getD (n - 1).toNat "",
           fixed_code := pyStripStr (v1.suggested_fix.getD ""),
           violation_description := v1.violation_description.getD "",
           rule_id := v1.rule_id.getD "unknown",
           confidence_score := v1.confidence_score.getD 0 },
         { file_path := p, line_number := n, column_number := v2.column_number,
           original_code := (pySplitChar '\n' content).getD (n - 1).toNat "",
           fixed_code := pyStripStr (v2.suggested_fix.getD ""),
           violation_description := v2.violation_description.getD "",
           rule_id := v2.rule_id.getD "unknown",
           confidence_score := v2.confidence_score.getD 0 }] := by
    unfold parse_violations_to_fixes
    simp only [List.filterMap_cons, List.filterMap_nil, hf1, hf2]
    simp [sortFixesDesc, insertFixDesc]
  constructor
  · rw [hparse]
    simp
  · rw [hparse]
    exact apply_two_same_line _ _ _ n rfl rfl (by omega) (by omega)

/-- Claim C4, witness: the amended theorem applied to two violations on
line 1 of a one-line file with suggested fixes `A` and `B`. -/
theorem c4_witness :
    (parse_violations_to_fixes "p" [{ line_number := some 1, suggested_fix := some "A" },
        { line_number := some 1, suggested_fix := some "B" }] "x").map (fun f => f.fixed_code)
      = ["A", "B"]
    ∧ (apply_fixes_lines (pySplitChar '\n' "x")
        (parse_violations_to_fixes "p" [{ line_number := some 1, suggested_fix := some "A" },
          { line_number := some 1, suggested_fix := some "B" }] "x"))[0]?
      = some "B" :=
  c4_amended "p" "x" { line_number := some 1, suggested_fix := some "A" }
    { line_number := some 1, suggested_fix := some "B" } 1 rfl rfl (by decide)
    (by decide) (by decide)

/-- Claim C4, counterexample: with two same-line fixes `A` then `B` in
the sorted list, the applied file holds `B` — the last same-line fix —
whereas the claim says the survivor is the first one (`A`). -/
theorem c4_counterexample :
    apply_fixes "orig" (parse_violations_to_fixes "p"
        [{ line_number := some 1, suggested_fix := some "A" },
         { line_number := some 1, suggested_fix := some "B" }] "orig") = "B"
    ∧ (parse_violations_to_fixes "p"
        [{ line_number := some 1, suggested_fix := some "A" },
         { line_number := some 1, suggested_fix := some "B" }] "orig").map
          (fun f => f.fixed_code) = ["A", "B"]
    ∧ ("B" : String) ≠ "A" :=
  ⟨rfl, rfl, by decide⟩

/-! ### Default replacement when no heuristic matches (C5) -/

theorem generate_auto_fix_default (original_line problematic_code desc : String)
    (hd1 : pyContainsSub "indentation" (pyLower desc) = false)
    (hd2 : pyContainsSub "space" (pyLower desc) = false)
    (hd3 : pyContainsSub "import" (pyLower desc) = false)
    (hd4 : pyContainsSub "line too long" (pyLower desc) = false)
    (hd5 : pyContainsSub "naming" (pyLower desc) = false)
    (hd6 : pyContainsSub "convention" (pyLower desc) = false) :
    generate_auto_fix original_line problematic_code desc
      = pyRstripStr original_line ++ "\n" := by
  unfold generate_auto_fix
  simp [hd1, hd2, hd3, hd4, hd5, hd6]

theorem append_newline_ne_empty (s : String) : s ++ "\n" ≠ "" := by
  intro h
  have h2 : (s ++ "\n").data = ("" : String).data := by rw [h]
  simp [String.data_append] at h2

/-- Claim C5 (amended): for a violation with an in-range line, an empty
suggested fix, a non-empty `problematic_code` and a description matching
none of the heuristics, the synthesized replacement is the original line
right-stripped with a newline appended — not the original line byte for
byte — and the resulting fix is retained in the synthesizer output: no
byte-identity filter exists.  (When `problematic_code` is also empty, no
fix is produced at all; and since application right-strips again, the
retained fix leaves a line without trailing whitespace unchanged, so the
rendered diff for it is empty.) -/
theorem c5_amended (p content : String) (v : Violation) (n : Int)
    (hn : v.line_number = some n)
    (hr : ¬(n < 1 ∨ ((pySplitChar '\n' content).length : Int) < n))
    (hs : pyStripStr (v.suggested_fix.getD "") = "")
    (hp : pyStripStr (v.problematic_code.getD "") ≠ "")
    (hd1 : pyContainsSub "indentation" (pyLower (v.violation_description.getD "")) = false)
    (hd2 : pyContainsSub "space" (pyLower (v.violation_description.getD "")) = false)
    (hd3 : pyContainsSub "import" (pyLower (v.violation_description.getD "")) = false)
    (hd4 : pyContainsSub "line too long" (pyLower (v.violation_description.getD "")) = false)
    (hd5 : pyContainsSub "naming" (pyLower (v.violation_description.getD "")) = false)
    (hd6 : pyContainsSub "convention" (pyLower (v.violation_description.getD "")) = false) :
    (parse_violations_to_fixes p [v] content).map (fun f => f.fixed_code)
      = [pyRstripStr ((pySplitChar '\n' content).getD (n - 1).toNat "") ++ "\n"] := by
  have hauto := generate_auto_fix_default
    ((pySplitChar '\n' content).getD (n - 1).toNat "")
    (pyStripStr (v.problematic_code.getD ""))
    (v.violation_description.getD "") hd1 hd2 hd3 hd4 hd5 hd6
  have hfix : create_fix_from_violation v (pySplitChar '\n' content) p = some
      { file_path := p, line_number := n, column_number := v.column_number,
        original_code := (pySplitChar '\n' content).getD (n - 1).toNat "",
        fixed_code := pyRstripStr ((pySplitChar '\n' content).getD (n - 1).toNat "") ++ "\n",
        violation_description := v.violation_description.getD "",
        rule_id := v.rule_id.getD "unknown",
        confidence_score := v.confidence_score.getD 0 } := by
    unfold create_fix_from_violation
    rw [hn]
    dsimp only
    rw [if_neg hr]
    simp only [if_pos hs, if_pos hp, hauto,
      if_neg (append_newline_ne_empty (pyRstripStr ((pySplitChar '\n' content).getD (n - 1).toNat "")))]
  unfold parse_violations_to_fixes
  simp only [List.filterMap_cons, List.filterMap_nil, hfix]
  simp [sortFixesDesc, insertFixDesc]

/-- Claim C5, witness: the amended theorem applied to a one-line file
whose line carries trailing blanks, making the right-strip visible in the
replacement. -/
theorem c5_witness :
    (parse_violations_to_fixes "q"
        [{ line_number := some 1, problematic_code := some "zz",
           violation_description := some "odd issue" }] "a  ").map (fun f => f.fixed_code)
      = ["a\n"] :=
  c5_amended "q" "a  "
    { line_number := some 1, problematic_code := some "zz",
      violation_description := some "odd issue" } 1 rfl (by decide) (by decide)
    (by decide) (by decide) (by decide) (by decide) (by decide) (by decide) (by decide)

/-- Claim C5, counterexample: the defaulted replacement `x = 1\n` is not
byte-identical to the original line `x = 1`, and the fix is not filtered
out before rendering — it is returned in `fixes_applied` (with an empty
rendered diff, since application right-strips the replacement back to the
original line). -/
theorem c5_counterexample :
    (generate_file_diff_core "p" "x = 1"
        [{ line_number := some 1, problematic_code := some "pass",
           violation_description := some "unclear issue" }]).map
      (fun r => (r.1.map (fun f => f.fixed_code), r.2))
      = some (["x = 1\n"], "")
    ∧ ("x = 1\n" : String) ≠ "x = 1" :=
  ⟨rfl, by decide⟩

end CodeRefactor
